import Mathlib

/-! # Terminal tic-tac-toe display (`term_tac_toe.c`)

A shallow embedding of `firmware_common/application/term_tac_toe.c`.

* `u8` values are natural numbers; a `u8` array is a `List Nat` holding every
  byte of the object, terminating NUL and padding included.
* A pointer into an array is an index, or (for the read-only walk of the
  copy loops) the list of bytes from the pointed-to byte to the end of the
  object.
* Every operation that C leaves undefined (a read or write outside an object,
  a call through a null function pointer) yields `none`.
* The collaborators of the module (debug terminal, buttons) are an explicit
  `World` that every function passes along.
-/

namespace TermTacToe

/-! ## C arrays and strings -/

/-- The bytes of a string literal, without the terminating NUL. -/
def lit (s : String) : List Nat :=
  s.toList.map Char.toNat

/-- An array declared without a size and initialised from the bytes `bs`:
the bytes followed by the terminating NUL. -/
def cstr (bs : List Nat) : List Nat :=
  bs ++ [0]

/-- An array of declared size `n` initialised from the bytes `bs`:
the bytes, then zero fill up to `n` bytes. -/
def arr (n : Nat) (bs : List Nat) : List Nat :=
  bs ++ List.replicate (n - bs.length) 0

/-- The C string stored at the start of `a`: the bytes before the first NUL. -/
def strOf (a : List Nat) : List Nat :=
  a.takeWhile (fun b => b != 0)

/-- Checked read `a[i]`. -/
def load (a : List Nat) (i : Nat) : Option Nat :=
  a.get? i

/-- Checked write `a[i] = v`. -/
def store (a : List Nat) (i : Nat) (v : Nat) : Option (List Nat) :=
  if i < a.length then some (a.set i v) else none

/-- The address `&t[i][0]` in a two-dimensional array `t`: the bytes from the
start of entry `i` to the end of the whole object, or nothing when `i` is not
an entry of `t`. -/
def entryPtr (t : List (List Nat)) (i : Nat) : Option (List Nat) :=
  if i < t.length then some (t.drop i).flatten else none

/-! ## Collaborators: terminal macros, debug terminal, buttons -/

/-- The terminal escape-sequence macros the file uses. They are declared in a
header that is not part of the sources, so their values are a parameter of
every function: each field is the bytes of the macro's string literal, without
the terminating NUL. -/
structure TermCodes where
  TERM_TEXT_RED : List Nat
  TERM_TEXT_YLW : List Nat
  TERM_BKG_BLK : List Nat
  TERM_CLEAR_SCREEN : List Nat
  TERM_CUR_HOME : List Nat
  TERM_CUR_HIDE : List Nat
  TERM_BLINK : List Nat
deriving DecidableEq, Repr

/-- The four buttons the Idle state polls. -/
inductive ButtonNameType where
  | BUTTON0
  | BUTTON1
  | BUTTON2
  | BUTTON3
deriving DecidableEq, Repr

/-- One flag per button. -/
structure Buttons where
  b0 : Bool
  b1 : Bool
  b2 : Bool
  b3 : Bool
deriving DecidableEq, Repr

/-- The flag of button `b`. -/
def Buttons.get (p : Buttons) : ButtonNameType → Bool
  | .BUTTON0 => p.b0
  | .BUTTON1 => p.b1
  | .BUTTON2 => p.b2
  | .BUTTON3 => p.b3

/-- The flags with the flag of button `b` cleared. -/
def Buttons.clear (p : Buttons) : ButtonNameType → Buttons
  | .BUTTON0 => { p with b0 := false }
  | .BUTTON1 => { p with b1 := false }
  | .BUTTON2 => { p with b2 := false }
  | .BUTTON3 => { p with b3 := false }

/-- The state bodies a `fnCode_type` function pointer of this module can
point at. -/
inductive fnCode_type where
  | TermTacToeSM_Setup
  | TermTacToeSM_Idle
  | TermTacToeSM_Error
deriving DecidableEq, Repr

/-- Modelled from the spec: the enum `UserMessageType` is declared in the
module header, which is not part of the sources. The spec gives its kinds as
{Waiting, LocalMove, RemoteMove}, in this order (values 0, 1, 2). -/
inductive UserMessageType where
  | TTT_WAITING
  | TTT_LOCAL_MOVE
  | TTT_REMOTE_MOVE
deriving DecidableEq, Repr

/-- The integer value of a message kind, as used to index the message table. -/
def UserMessageType.toNat : UserMessageType → Nat
  | .TTT_WAITING => 0
  | .TTT_LOCAL_MOVE => 1
  | .TTT_REMOTE_MOVE => 2

/-- Modelled from the spec: the macro `EX` is declared in the module header,
which is not part of the sources; the glyph argument is true for an X. -/
def EX : Bool := true

/-- Modelled from the spec: the macro `OH` is declared in the module header,
which is not part of the sources; the glyph argument is false for an O. -/
def OH : Bool := false

/-- The variables of the module (lines 37 and 55 to 70). The receive buffers
are never accessed by the code and are left out. -/
structure Statics where
  G_u32TermTacToeFlags : Nat
  TermTacToe_pfStateMachine : Option fnCode_type
  TermTacToe_u32Timeout : Nat
  TermTacToe_u32Flags : Nat
  TermTacToe_au8GameBoard : List Nat
  TermTacToe_au8UserMessage : List (List Nat)
deriving DecidableEq, Repr

/-- Everything a call can read or change: the bytes handed to the debug
terminal so far (oldest first), the passthrough switch of the debug task, the
pending-press flag of each button, the log of acknowledge calls, and the
variables of the module. -/
structure World where
  term : List Nat
  passthrough : Bool
  pressed : Buttons
  acks : List ButtonNameType
  mod : Statics
deriving DecidableEq, Repr

/-- Initial value of `TermTacToe_au8GameBoard` (line 65). -/
def TermTacToe_au8GameBoard : List Nat :=
  cstr (lit "     |     |\n\r  0  |  1  |  2\n\r     |     |\n\r-----|-----|-----\n\r     |     |\n\r  3  |  4  |  5 \n\r     |     |\n\r-----|-----|-----\n\r     |     |\n\r  6  |  7  |  8\n\r     |     |\n\n\n\r")

/-- Initial value of `TermTacToe_au8UserMessage` (lines 68 to 70): three
slots of 18 bytes. -/
def TermTacToe_au8UserMessage : List (List Nat) :=
  [arr 18 (lit " WAIT TO CONNECT "),
   arr 18 (lit "    YOUR TURN    "),
   arr 18 (lit "    THEIR TURN   ")]

/-- The variables of the module as the C start-up code leaves them: zero
where the source gives no initialiser (a null state pointer), the literals of
lines 65 to 70 in the two tables. -/
def Statics.boot : Statics where
  G_u32TermTacToeFlags := 0
  TermTacToe_pfStateMachine := none
  TermTacToe_u32Timeout := 0
  TermTacToe_u32Flags := 0
  TermTacToe_au8GameBoard := TermTacToe.TermTacToe_au8GameBoard
  TermTacToe_au8UserMessage := TermTacToe.TermTacToe_au8UserMessage

/-- Modelled from the spec: `DebugPrintf` belongs to the debug driver, which is
not part of the sources. The spec treats the transport as always accepting the
bytes and emitting them in order, so the call appends the C string stored at
`a` to the terminal output; an array without a terminating NUL is read past
its end. -/
def DebugPrintf (a : List Nat) (w : World) : Option World :=
  if 0 ∈ a then some { w with term := w.term ++ strOf a } else none

/-- Modelled from the spec: `DebugSetPassthrough` belongs to the debug driver,
which is not part of the sources. It disables command interpretation on the
transport. -/
def DebugSetPassthrough (w : World) : World :=
  { w with passthrough := true }

/-- Modelled from the spec: `WasButtonPressed` belongs to the button driver,
which is not part of the sources. It reports whether a press event of the
button is pending. -/
def WasButtonPressed (b : ButtonNameType) (w : World) : Bool :=
  w.pressed.get b

/-- Modelled from the spec: `ButtonAcknowledge` belongs to the button driver,
which is not part of the sources. It clears the pending press event of the
button; the call is also recorded in the acknowledge log. -/
def ButtonAcknowledge (b : ButtonNameType) (w : World) : World :=
  { w with pressed := w.pressed.clear b, acks := w.acks ++ [b] }

/-! ## The functions of `term_tac_toe.c` -/

/-- Lines 113 to 125. -/
def TermTacToeInitialize (T : TermCodes) (w : World) : Option World := do
  let w ← DebugPrintf (cstr (lit "### TIC-TAC-TOE ###\n\rPlease set terminal to 17 x 14\n\r")) w
  let w := DebugSetPassthrough w
  let w ← DebugPrintf (cstr T.TERM_CUR_HIDE) w
  pure { w with mod := { w.mod with TermTacToe_pfStateMachine := some .TermTacToeSM_Setup } }

/-- The copy loop of lines 198 to 203 and of lines 210 to 215:
`do { *dst = *src; dst++; src++; } while (*src != 0)`.
`src` is the memory from `pu8ParserSource` to the end of its object, `buf` is
`au8SetCursor` and `dst` the index `pu8ParserDest` points at. Returns the
buffer and the destination index after the loop. -/
def copyDoWhile : List Nat → List Nat → Nat → Option (List Nat × Nat)
  | [], _, _ => none
  | c :: rest, buf, dst =>
    match store buf dst c with
    | none => none
    | some buf1 =>
      match rest with
      | [] => none
      | n :: _ => if n != 0 then copyDoWhile rest buf1 (dst + 1) else some (buf1, dst + 1)

/-- Lines 175 to 182 and 194 to 220 of `TermTacToeWriteSquare`: the cursor
command built in `au8SetCursor` for square `u8Square_`. -/
def buildSetCursor (u8Square_ : Nat) : Option (List Nat) := do
  let au8Columns := [arr 3 (lit "3"), arr 3 (lit "9"), arr 3 (lit "15")]
  let au8Rows := [arr 3 (lit "2"), arr 3 (lit "6"), arr 3 (lit "10")]
  let u8ColumnIndex := u8Square_ % 3
  let u8RowIndex := u8Square_ / 3
  let au8SetCursor := arr 13 (lit "\x1b[r;cH")
  let pu8ParserSource ← entryPtr au8Rows u8RowIndex
  let pu8ParserDest := 2
  let (au8SetCursor, pu8ParserDest) ← copyDoWhile pu8ParserSource au8SetCursor pu8ParserDest
  let au8SetCursor ← store au8SetCursor pu8ParserDest ';'.toNat
  let pu8ParserDest := pu8ParserDest + 1
  let pu8ParserSource ← entryPtr au8Columns u8ColumnIndex
  let (au8SetCursor, pu8ParserDest) ← copyDoWhile pu8ParserSource au8SetCursor pu8ParserDest
  let au8SetCursor ← store au8SetCursor pu8ParserDest 'H'.toNat
  let pu8ParserDest := pu8ParserDest + 1
  store au8SetCursor pu8ParserDest 0

/-- Lines 170, 171 and 187 to 191 of `TermTacToeWriteSquare`: the arrays
`au8CharToWrite` and `au8CharColor` after the update for an X. -/
def glyphAndColor (T : TermCodes) (bX_ : Bool) : Option (List Nat × List Nat) := do
  let au8CharToWrite := cstr (lit "O")
  let au8CharColor := cstr T.TERM_TEXT_RED
  if bX_ then
    let au8CharToWrite ← store au8CharToWrite 0 'X'.toNat
    let au8CharColor ← store au8CharColor 3 '2'.toNat
    pure (au8CharToWrite, au8CharColor)
  else
    pure (au8CharToWrite, au8CharColor)

/-- Lines 168 to 230. -/
def TermTacToeWriteSquare (T : TermCodes) (u8Square_ : Nat) (bX_ : Bool) (w : World) :
    Option World := do
  let (au8CharToWrite, au8CharColor) ← glyphAndColor T bX_
  let au8SetCursor ← buildSetCursor u8Square_
  let w ← DebugPrintf (cstr (lit "\x1b[0m\x1b[40m\x1b[1m")) w
  let w ← DebugPrintf au8CharColor w
  let w ← DebugPrintf au8SetCursor w
  DebugPrintf au8CharToWrite w

/-- Lines 248 to 260. -/
def TermTacToeWriteUserMessage (T : TermCodes) (eMessageNumber_ : UserMessageType)
    (w : World) : Option World := do
  let w ← DebugPrintf (cstr (lit "\x1b[12;1H\x1b[0m\x1b[34m\x1b[7m")) w
  let w ← if eMessageNumber_ = .TTT_LOCAL_MOVE then DebugPrintf (cstr T.TERM_BLINK) w
    else pure w
  let msg ← entryPtr w.mod.TermTacToe_au8UserMessage eMessageNumber_.toNat
  DebugPrintf msg w

/-- Lines 269 to 285. -/
def TermTacToeSM_Setup (T : TermCodes) (w : World) : Option World := do
  let w ← DebugPrintf (cstr T.TERM_BKG_BLK) w
  let w ← DebugPrintf (cstr T.TERM_TEXT_YLW) w
  let w ← DebugPrintf (cstr T.TERM_CLEAR_SCREEN) w
  let w ← DebugPrintf (cstr T.TERM_CUR_HOME) w
  let w ← DebugPrintf w.mod.TermTacToe_au8GameBoard w
  let w ← TermTacToeWriteUserMessage T .TTT_WAITING w
  pure { w with mod := { w.mod with TermTacToe_pfStateMachine := some .TermTacToeSM_Idle } }

/-- One `if(WasButtonPressed(b)) { ... }` block of lines 293 to 319. -/
def idleButton (T : TermCodes) (b : ButtonNameType) (u8Square_ : Nat) (bX_ : Bool)
    (m : UserMessageType) (w : World) : Option World :=
  if WasButtonPressed b w then do
    let w := ButtonAcknowledge b w
    let w ← TermTacToeWriteSquare T u8Square_ bX_ w
    TermTacToeWriteUserMessage T m w
  else
    pure w

/-- Lines 290 to 321. -/
def TermTacToeSM_Idle (T : TermCodes) (w : World) : Option World := do
  let w ← idleButton T .BUTTON0 0 EX .TTT_REMOTE_MOVE w
  let w ← idleButton T .BUTTON1 2 EX .TTT_REMOTE_MOVE w
  let w ← idleButton T .BUTTON2 4 OH .TTT_LOCAL_MOVE w
  idleButton T .BUTTON3 8 OH .TTT_LOCAL_MOVE w

/-- Lines 326 to 329. -/
def TermTacToeSM_Error (_T : TermCodes) (w : World) : Option World :=
  pure w

/-- Lines 143 to 147: the call through `TermTacToe_pfStateMachine`. -/
def TermTacToeRunActiveState (T : TermCodes) (w : World) : Option World :=
  match w.mod.TermTacToe_pfStateMachine with
  | none => none
  | some .TermTacToeSM_Setup => TermTacToeSM_Setup T w
  | some .TermTacToeSM_Idle => TermTacToeSM_Idle T w
  | some .TermTacToeSM_Error => TermTacToeSM_Error T w

/-! ## Vocabulary of the specification -/

/-- The ANSI values of the terminal macros, used to evaluate the functions on
concrete input. -/
def ansi : TermCodes where
  TERM_TEXT_RED := lit "\x1b[31m"
  TERM_TEXT_YLW := lit "\x1b[33m"
  TERM_BKG_BLK := lit "\x1b[40m"
  TERM_CLEAR_SCREEN := lit "\x1b[2J"
  TERM_CUR_HOME := lit "\x1b[H"
  TERM_CUR_HIDE := lit "\x1b[?25l"
  TERM_BLINK := lit "\x1b[5m"

/-- The world at reset: nothing printed, no press pending, the variables of
the module as the start-up code leaves them. -/
def World.boot : World where
  term := []
  passthrough := false
  pressed := ⟨false, false, false, false⟩
  acks := []
  mod := Statics.boot

/-- The cursor-position sequence `ESC [ row ; col H`, row and column in
decimal. -/
def cursorPos (row col : Nat) : List Nat :=
  lit ("\x1b[" ++ toString row ++ ";" ++ toString col ++ "H")

/-- The terminal row of a cell: `{2,6,10}[cellIndex / 3]`. -/
def cellRow (cellIndex : Nat) : Nat :=
  [2, 6, 10].getD (cellIndex / 3) 0

/-- The terminal column of a cell: `{3,9,15}[cellIndex % 3]`. -/
def cellCol (cellIndex : Nat) : Nat :=
  [3, 9, 15].getD (cellIndex % 3) 0

/-- The reset, black-background, bold formatting sequence. -/
def formatSeq : List Nat :=
  lit "\x1b[0m\x1b[40m\x1b[1m"

/-- The colour-select sequence: the string of `TERM_TEXT_RED`, with its byte
at index 3 replaced by `'2'` for an X. -/
def colorSeq (T : TermCodes) (isX : Bool) : List Nat :=
  strOf (cstr (if isX then T.TERM_TEXT_RED.set 3 '2'.toNat else T.TERM_TEXT_RED))

/-- The glyph character: `'X'` or `'O'`. -/
def glyph (isX : Bool) : Nat :=
  if isX then 'X'.toNat else 'O'.toNat

/-- The bytes `TermTacToeWriteSquare` is specified to emit: formatting, colour
select, cursor position, glyph. -/
def squareOut (T : TermCodes) (cellIndex : Nat) (isX : Bool) : List Nat :=
  formatSeq ++ colorSeq T isX ++ cursorPos (cellRow cellIndex) (cellCol cellIndex) ++ [glyph isX]

/-- The text of each status message. -/
def messageText : UserMessageType → List Nat
  | .TTT_WAITING => lit " WAIT TO CONNECT "
  | .TTT_LOCAL_MOVE => lit "    YOUR TURN    "
  | .TTT_REMOTE_MOVE => lit "    THEIR TURN   "

/-- The bytes `TermTacToeWriteUserMessage` is specified to emit: cursor
position of the status line, reset, blue, reverse video, blink for the local
move only, then the text. -/
def messageOut (T : TermCodes) (k : UserMessageType) : List Nat :=
  cursorPos 12 1 ++ lit "\x1b[0m" ++ lit "\x1b[34m" ++ lit "\x1b[7m" ++
    (if k = .TTT_LOCAL_MOVE then strOf (cstr T.TERM_BLINK) else []) ++ messageText k

/-- The terminal configuration the Setup state emits: black background,
yellow text, clear screen, cursor home. -/
def configSeq (T : TermCodes) : List Nat :=
  strOf (cstr T.TERM_BKG_BLK) ++ strOf (cstr T.TERM_TEXT_YLW) ++
    strOf (cstr T.TERM_CLEAR_SCREEN) ++ strOf (cstr T.TERM_CUR_HOME)

/-- New press events raised by the button driver between two ticks: the
flags in `b` become pending, pending ones stay pending. -/
def press (b : Buttons) (w : World) : World :=
  { w with pressed :=
      ⟨w.pressed.b0 || b.b0, w.pressed.b1 || b.b1, w.pressed.b2 || b.b2, w.pressed.b3 || b.b3⟩ }

/-- A run of the scheduler: one `TermTacToeRunActiveState` call per element of
the input list, the button input of the tick arriving just before the call. -/
def runTicks (T : TermCodes) : List Buttons → World → Option World
  | [], w => some w
  | b :: bs, w => (TermTacToeRunActiveState T (press b w)).bind (runTicks T bs)

/-- The fixed mapping of the Idle state, in polling order: input, cell, glyph
(true for X), message kind. -/
def idleActions : List (ButtonNameType × Nat × Bool × UserMessageType) :=
  [(.BUTTON0, 0, true, .TTT_REMOTE_MOVE),
   (.BUTTON1, 2, true, .TTT_REMOTE_MOVE),
   (.BUTTON2, 4, false, .TTT_LOCAL_MOVE),
   (.BUTTON3, 8, false, .TTT_LOCAL_MOVE)]

/-- The entries of the mapping whose input has a pending press. -/
def pendingActions (p : Buttons) : List (ButtonNameType × Nat × Bool × UserMessageType) :=
  idleActions.filter (fun a => p.get a.1)

/-- The bytes one Idle tick is specified to emit: for each pressed input, in
polling order, the output of writing the cell followed by the output of
writing the message. -/
def idleOut (T : TermCodes) (p : Buttons) : List Nat :=
  ((pendingActions p).map (fun a => squareOut T a.2.1 a.2.2.1 ++ messageOut T a.2.2.2)).flatten

/-- The inputs one Idle tick is specified to acknowledge: the pressed ones, in
polling order. -/
def idleAcks (p : Buttons) : List ButtonNameType :=
  (pendingActions p).map (fun a => a.1)

/-- An Idle world with a press pending on input 0 only, nothing printed yet. -/
def idleWorld0 : World where
  term := []
  passthrough := true
  pressed := ⟨true, false, false, false⟩
  acks := []
  mod := { Statics.boot with TermTacToe_pfStateMachine := some .TermTacToeSM_Idle }

/-- The function `f` called `n` times in a row. -/
def callTimes (f : World → Option World) : Nat → World → Option World
  | 0, w => some w
  | n + 1, w => (f w).bind (callTimes f n)

/-! ## The terminal screen -/

/-- The lines of a text: the pieces between the line breaks `"\n\r"`. -/
def splitLines : List Nat → List (List Nat)
  | [] => [[]]
  | b :: rest =>
    match splitLines rest with
    | [] => [[b]]
    | l :: ls => if b = '\n'.toNat ∧ l.head? = some '\r'.toNat then [] :: l.tail :: ls
      else (b :: l) :: ls

/-- One plain byte sent to the terminal with the cursor at `(row, col)`: a
line feed moves the cursor one row down, a carriage return moves it to column
1, any other byte is printed at the cursor, which then advances one column. -/
def cursorStep (pos : Nat × Nat) (b : Nat) : Nat × Nat :=
  if b = '\n'.toNat then (pos.1 + 1, pos.2)
  else if b = '\r'.toNat then (pos.1, 1)
  else (pos.1, pos.2 + 1)

/-- The cursor position after each byte of a text that starts at `pos`. -/
def cursorTrace : List Nat → Nat × Nat → List (Nat × Nat)
  | [], _ => []
  | b :: rest, pos => cursorStep pos b :: cursorTrace rest (cursorStep pos b)

/-- The cells a text prints when it starts at `pos`: row, column, byte. -/
def printedCells : List Nat → Nat × Nat → List (Nat × Nat × Nat)
  | [], _ => []
  | b :: rest, pos =>
    if b = '\n'.toNat ∨ b = '\r'.toNat then printedCells rest (cursorStep pos b)
    else (pos.1, pos.2, b) :: printedCells rest (cursorStep pos b)

/-- The byte shown at `(row, col)` after the cells were printed in order. -/
def charAt (cells : List (Nat × Nat × Nat)) (row col : Nat) : Option Nat :=
  ((cells.reverse.find? (fun x => x.1 == row && x.2.1 == col))).map (fun x => x.2.2)

/-- The board template as the terminal receives it. -/
def boardText : List Nat :=
  strOf TermTacToe_au8GameBoard

/-! ## Ghost write log of the cursor-string builder -/

/-- The loop `copyDoWhile` with a ghost log: it also returns the indices of
`au8SetCursor` the loop writes, in order. -/
def copyDoWhileLog : List Nat → List Nat → Nat → Option (List Nat × Nat × List Nat)
  | [], _, _ => none
  | c :: rest, buf, dst =>
    match store buf dst c with
    | none => none
    | some buf1 =>
      match rest with
      | [] => none
      | n :: _ =>
        if n != 0 then
          match copyDoWhileLog rest buf1 (dst + 1) with
          | none => none
          | some (b, d, log) => some (b, d, dst :: log)
        else some (buf1, dst + 1, [dst])

/-- What a run of the builder did: the final `au8SetCursor`, the two table
indices, the number of bytes each loop copied, and every index of
`au8SetCursor` written, in order. -/
structure BuildLog where
  buf : List Nat
  rowIndex : Nat
  colIndex : Nat
  rowCopied : Nat
  colCopied : Nat
  writes : List Nat
deriving DecidableEq, Repr

/-- The builder `buildSetCursor` with the ghost log. -/
def buildSetCursorLog (u8Square_ : Nat) : Option BuildLog := do
  let au8Columns := [arr 3 (lit "3"), arr 3 (lit "9"), arr 3 (lit "15")]
  let au8Rows := [arr 3 (lit "2"), arr 3 (lit "6"), arr 3 (lit "10")]
  let u8ColumnIndex := u8Square_ % 3
  let u8RowIndex := u8Square_ / 3
  let au8SetCursor := arr 13 (lit "\x1b[r;cH")
  let pu8ParserSource ← entryPtr au8Rows u8RowIndex
  let pu8ParserDest := 2
  let (au8SetCursor, pu8ParserDest, log1) ← copyDoWhileLog pu8ParserSource au8SetCursor pu8ParserDest
  let au8SetCursor ← store au8SetCursor pu8ParserDest ';'.toNat
  let semi := pu8ParserDest
  let pu8ParserDest := pu8ParserDest + 1
  let pu8ParserSource ← entryPtr au8Columns u8ColumnIndex
  let (au8SetCursor, pu8ParserDest, log2) ← copyDoWhileLog pu8ParserSource au8SetCursor pu8ParserDest
  let au8SetCursor ← store au8SetCursor pu8ParserDest 'H'.toNat
  let aitch := pu8ParserDest
  let pu8ParserDest := pu8ParserDest + 1
  let au8SetCursor ← store au8SetCursor pu8ParserDest 0
  pure { buf := au8SetCursor, rowIndex := u8RowIndex, colIndex := u8ColumnIndex,
         rowCopied := log1.length, colCopied := log2.length,
         writes := log1 ++ [semi] ++ log2 ++ [aitch, pu8ParserDest] }

/-! ## Auxiliary lemmas -/

theorem DebugPrintf_of_mem {a : List Nat} (h : 0 ∈ a) (w : World) :
    DebugPrintf a w = some { w with term := w.term ++ strOf a } := by
  simp [DebugPrintf, h]

theorem DebugPrintf_cstr (bs : List Nat) (w : World) :
    DebugPrintf (cstr bs) w = some { w with term := w.term ++ strOf (cstr bs) } :=
  DebugPrintf_of_mem (by simp [cstr]) w

theorem buildSetCursor_eq (sq : Nat) (h : sq < 9) :
    buildSetCursor sq = some (arr 13 (cursorPos (cellRow sq) (cellCol sq))) := by
  interval_cases sq <;> decide

theorem strOf_arr_cursorPos (sq : Nat) (h : sq < 9) :
    0 ∈ arr 13 (cursorPos (cellRow sq) (cellCol sq)) ∧
      strOf (arr 13 (cursorPos (cellRow sq) (cellCol sq))) =
        cursorPos (cellRow sq) (cellCol sq) := by
  interval_cases sq <;> decide

theorem glyphAndColor_eq (T : TermCodes) (bX : Bool)
    (hred : bX = true → 3 < T.TERM_TEXT_RED.length) :
    glyphAndColor T bX =
      some (cstr [glyph bX],
        cstr (if bX then T.TERM_TEXT_RED.set 3 '2'.toNat else T.TERM_TEXT_RED)) := by
  cases bX with
  | false => rfl
  | true =>
    have h3 : 3 < T.TERM_TEXT_RED.length := hred rfl
    have h4 : 3 < T.TERM_TEXT_RED.length + 1 := by omega
    simp [glyphAndColor, store, cstr, lit, glyph, h4, List.set_append_left, h3]

theorem strOf_cstr_singleton (b : Nat) (hb : b ≠ 0) : strOf (cstr [b]) = [b] := by
  have h : (b != 0) = true := by simpa using hb
  simp [strOf, cstr, List.takeWhile, h]

theorem glyph_ne_zero (bX : Bool) : glyph bX ≠ 0 := by
  cases bX <;> decide

/-- The whole output of `TermTacToeWriteSquare` on a valid square. -/
theorem writeSquare_eq (T : TermCodes) (w : World) (sq : Nat) (bX : Bool)
    (hsq : sq < 9) (hred : bX = true → 3 < T.TERM_TEXT_RED.length) :
    TermTacToeWriteSquare T sq bX w =
      some { w with term := w.term ++ squareOut T sq bX } := by
  have hfmt : strOf (cstr (lit "\x1b[0m\x1b[40m\x1b[1m")) = formatSeq := by decide
  obtain ⟨h0, hs⟩ := strOf_arr_cursorPos sq hsq
  simp only [TermTacToeWriteSquare, glyphAndColor_eq T bX hred, buildSetCursor_eq sq hsq,
    DebugPrintf_cstr, DebugPrintf_of_mem h0, hs, hfmt, Option.bind_eq_bind, Option.some_bind,
    strOf_cstr_singleton _ (glyph_ne_zero bX), colorSeq, squareOut, List.append_assoc]

/-! ## Drawing a square -/

/-- C1: for every cell index in 0..8 and both glyphs, the cursor command that
`TermTacToeWriteSquare` builds in `au8SetCursor` is `ESC [ R ; C H` followed
only by NUL bytes, where R is the decimal text of `{2,6,10}[cellIndex / 3]`
and C the decimal text of `{3,9,15}[cellIndex % 3]`, so nothing of the
`r;cH` placeholder is left; the function emits exactly that string between the
colour sequence and the glyph. Cell 0 gives `ESC[2;3H`, cell 8 gives
`ESC[10;15H`. -/
theorem writeSquare_cursor_position (T : TermCodes) (w : World) (cellIndex : Nat) (isX : Bool)
    (hcell : cellIndex < 9) (hred : isX = true → 3 < T.TERM_TEXT_RED.length) :
    buildSetCursor cellIndex =
        some (arr 13 (cursorPos (cellRow cellIndex) (cellCol cellIndex))) ∧
      strOf (arr 13 (cursorPos (cellRow cellIndex) (cellCol cellIndex))) =
        cursorPos (cellRow cellIndex) (cellCol cellIndex) ∧
      (∃ w1, TermTacToeWriteSquare T cellIndex isX w = some w1 ∧
        w1.term = (w.term ++ formatSeq ++ colorSeq T isX) ++
          cursorPos (cellRow cellIndex) (cellCol cellIndex) ++ [glyph isX]) ∧
      cursorPos (cellRow 0) (cellCol 0) = lit "\x1b[2;3H" ∧
      cursorPos (cellRow 8) (cellCol 8) = lit "\x1b[10;15H" := by
  refine ⟨buildSetCursor_eq cellIndex hcell, (strOf_arr_cursorPos cellIndex hcell).2,
    ⟨_, writeSquare_eq T w cellIndex isX hcell hred, ?_⟩, by decide, by decide⟩
  simp [squareOut, List.append_assoc]

theorem writeSquare_cursor_position_witness :
    (8 < 9 ∧ ((true = true) → 3 < ansi.TERM_TEXT_RED.length)) ∧
      (buildSetCursor 8 = some (arr 13 (cursorPos (cellRow 8) (cellCol 8))) ∧
        strOf (arr 13 (cursorPos (cellRow 8) (cellCol 8))) = cursorPos (cellRow 8) (cellCol 8) ∧
        (∃ w1, TermTacToeWriteSquare ansi 8 true World.boot = some w1 ∧
          w1.term = (World.boot.term ++ formatSeq ++ colorSeq ansi true) ++
            cursorPos (cellRow 8) (cellCol 8) ++ [glyph true]) ∧
        cursorPos (cellRow 0) (cellCol 0) = lit "\x1b[2;3H" ∧
        cursorPos (cellRow 8) (cellCol 8) = lit "\x1b[10;15H") :=
  ⟨⟨by decide, fun _ => by decide⟩,
    writeSquare_cursor_position ansi World.boot 8 true (by decide) (fun _ => by decide)⟩

/-- C2: for every cell index in 0..8 and both glyphs, `TermTacToeWriteSquare`
appends to the terminal output exactly, in this order, the formatting sequence
`ESC[0m ESC[40m ESC[1m`, the colour-select sequence, the cursor-position
sequence `ESC[row;colH` and one glyph character, nothing after it, and changes
nothing else. -/
theorem writeSquare_output_order (T : TermCodes) (w : World) (cellIndex : Nat) (isX : Bool)
    (hcell : cellIndex < 9) (hred : isX = true → 3 < T.TERM_TEXT_RED.length) :
    TermTacToeWriteSquare T cellIndex isX w =
      some { w with term := w.term ++
        ((lit "\x1b[0m" ++ lit "\x1b[40m" ++ lit "\x1b[1m") ++ colorSeq T isX ++
          cursorPos (cellRow cellIndex) (cellCol cellIndex) ++ [glyph isX]) } := by
  have h : lit "\x1b[0m" ++ lit "\x1b[40m" ++ lit "\x1b[1m" = formatSeq := by decide
  rw [h]
  exact writeSquare_eq T w cellIndex isX hcell hred

theorem writeSquare_output_order_witness :
    (4 < 9 ∧ ((false = true) → 3 < ansi.TERM_TEXT_RED.length)) ∧
      TermTacToeWriteSquare ansi 4 false World.boot =
        some { World.boot with term := World.boot.term ++
          ((lit "\x1b[0m" ++ lit "\x1b[40m" ++ lit "\x1b[1m") ++ colorSeq ansi false ++
            cursorPos (cellRow 4) (cellCol 4) ++ [glyph false]) } :=
  ⟨⟨by decide, fun _ => by decide⟩,
    writeSquare_output_order ansi World.boot 4 false (by decide) (fun _ => by decide)⟩

/-- C3: for every cell index in 0..8, `TermTacToeWriteSquare` with `isX = true`
emits the glyph `'X'` after the string of `TERM_TEXT_RED` with its byte at
index 3 replaced by `'2'`, and with `isX = false` emits the glyph `'O'` after
the unmodified string of `TERM_TEXT_RED`; neither the glyph nor the colour
mentions the cell index. -/
theorem writeSquare_glyph_and_color (T : TermCodes) (w : World) (cellIndex : Nat)
    (hcell : cellIndex < 9) (hred : 3 < T.TERM_TEXT_RED.length) :
    TermTacToeWriteSquare T cellIndex true w =
        some { w with term := w.term ++
          (formatSeq ++ strOf (cstr (T.TERM_TEXT_RED.set 3 '2'.toNat)) ++
            cursorPos (cellRow cellIndex) (cellCol cellIndex) ++ ['X'.toNat]) } ∧
      TermTacToeWriteSquare T cellIndex false w =
        some { w with term := w.term ++
          (formatSeq ++ strOf (cstr T.TERM_TEXT_RED) ++
            cursorPos (cellRow cellIndex) (cellCol cellIndex) ++ ['O'.toNat]) } :=
  ⟨writeSquare_eq T w cellIndex true hcell (fun _ => hred),
    writeSquare_eq T w cellIndex false hcell (fun h => by cases h)⟩

theorem writeSquare_glyph_and_color_witness :
    (2 < 9 ∧ 3 < ansi.TERM_TEXT_RED.length) ∧
      (TermTacToeWriteSquare ansi 2 true World.boot =
          some { World.boot with term := World.boot.term ++
            (formatSeq ++ strOf (cstr (ansi.TERM_TEXT_RED.set 3 '2'.toNat)) ++
              cursorPos (cellRow 2) (cellCol 2) ++ ['X'.toNat]) } ∧
        TermTacToeWriteSquare ansi 2 false World.boot =
          some { World.boot with term := World.boot.term ++
            (formatSeq ++ strOf (cstr ansi.TERM_TEXT_RED) ++
              cursorPos (cellRow 2) (cellCol 2) ++ ['O'.toNat]) }) :=
  ⟨⟨by decide, by decide⟩,
    writeSquare_glyph_and_color ansi World.boot 2 (by decide) (by decide)⟩

/-! ## Writing a status message -/

theorem userMessage_entry (k : UserMessageType) :
    ∃ p, entryPtr TermTacToe_au8UserMessage k.toNat = some p ∧ 0 ∈ p ∧
      strOf p = messageText k := by
  cases k
  · exact ⟨_, rfl, by decide, by decide⟩
  · exact ⟨_, rfl, by decide, by decide⟩
  · exact ⟨_, rfl, by decide, by decide⟩

/-- The whole output of `TermTacToeWriteUserMessage` while the message table
holds its initial contents. -/
theorem writeUserMessage_eq (T : TermCodes) (w : World) (k : UserMessageType)
    (htab : w.mod.TermTacToe_au8UserMessage = TermTacToe_au8UserMessage) :
    TermTacToeWriteUserMessage T k w = some { w with term := w.term ++ messageOut T k } := by
  have hpre : strOf (cstr (lit "\x1b[12;1H\x1b[0m\x1b[34m\x1b[7m")) =
      cursorPos 12 1 ++ lit "\x1b[0m" ++ lit "\x1b[34m" ++ lit "\x1b[7m" := by decide
  obtain ⟨p, hp, h0, hs⟩ := userMessage_entry k
  by_cases hk : k = .TTT_LOCAL_MOVE
  · simp only [TermTacToeWriteUserMessage, DebugPrintf_cstr, Option.bind_eq_bind,
      Option.some_bind, hk, if_true, htab]
    rw [hk] at hp hs
    simp only [hp, Option.some_bind, DebugPrintf_of_mem h0, hs, hpre, messageOut, if_true,
      List.append_assoc]
  · simp only [TermTacToeWriteUserMessage, DebugPrintf_cstr, Option.bind_eq_bind,
      Option.some_bind, hk, if_false, htab, Option.pure_def, hp, DebugPrintf_of_mem h0, hs,
      hpre, messageOut, List.append_assoc, List.nil_append]

/-- C4: for each of the three message kinds, `TermTacToeWriteUserMessage`
appends to the terminal output exactly the cursor-position sequence of the
status line, then reset, blue and reverse video, then the blink sequence if
and only if the kind is the local move, then the table string of the kind
(" WAIT TO CONNECT ", "    YOUR TURN    ", "    THEIR TURN   "), and changes
nothing else. -/
theorem writeUserMessage_output (T : TermCodes) (w : World) (k : UserMessageType)
    (htab : w.mod.TermTacToe_au8UserMessage = TermTacToe_au8UserMessage) :
    TermTacToeWriteUserMessage T k w =
        some { w with term := w.term ++
          (cursorPos 12 1 ++ lit "\x1b[0m" ++ lit "\x1b[34m" ++ lit "\x1b[7m" ++
            (if k = .TTT_LOCAL_MOVE then strOf (cstr T.TERM_BLINK) else []) ++
            messageText k) } ∧
      k.toNat < 3 ∧
      messageText .TTT_WAITING = lit " WAIT TO CONNECT " ∧
      messageText .TTT_LOCAL_MOVE = lit "    YOUR TURN    " ∧
      messageText .TTT_REMOTE_MOVE = lit "    THEIR TURN   " :=
  ⟨writeUserMessage_eq T w k htab, by cases k <;> decide, rfl, rfl, rfl⟩

theorem writeUserMessage_output_witness :
    World.boot.mod.TermTacToe_au8UserMessage = TermTacToe_au8UserMessage ∧
      (TermTacToeWriteUserMessage ansi .TTT_LOCAL_MOVE World.boot =
          some { World.boot with term := World.boot.term ++
            (cursorPos 12 1 ++ lit "\x1b[0m" ++ lit "\x1b[34m" ++ lit "\x1b[7m" ++
              (if UserMessageType.TTT_LOCAL_MOVE = .TTT_LOCAL_MOVE
                then strOf (cstr ansi.TERM_BLINK) else []) ++
              messageText .TTT_LOCAL_MOVE) } ∧
        UserMessageType.TTT_LOCAL_MOVE.toNat < 3 ∧
        messageText .TTT_WAITING = lit " WAIT TO CONNECT " ∧
        messageText .TTT_LOCAL_MOVE = lit "    YOUR TURN    " ∧
        messageText .TTT_REMOTE_MOVE = lit "    THEIR TURN   ") :=
  ⟨rfl, writeUserMessage_output ansi World.boot .TTT_LOCAL_MOVE rfl⟩

/-- C5: with `TERM_BLINK` the sequence `ESC[5m`, the byte string that
`TermTacToeWriteUserMessage` emits contains `ESC[5m` as a contiguous substring
for the local move, and does not contain it anywhere for the waiting and the
remote-move messages. -/
theorem writeUserMessage_blink (T : TermCodes) (w : World) (k : UserMessageType)
    (htab : w.mod.TermTacToe_au8UserMessage = TermTacToe_au8UserMessage)
    (hblink : T.TERM_BLINK = lit "\x1b[5m") :
    TermTacToeWriteUserMessage T k w = some { w with term := w.term ++ messageOut T k } ∧
      (List.IsInfix (lit "\x1b[5m") (messageOut T k) ↔ k = .TTT_LOCAL_MOVE) := by
  refine ⟨writeUserMessage_eq T w k htab, ?_⟩
  unfold messageOut
  rw [hblink]
  cases k <;> decide

theorem writeUserMessage_blink_witness :
    (World.boot.mod.TermTacToe_au8UserMessage = TermTacToe_au8UserMessage ∧
        ansi.TERM_BLINK = lit "\x1b[5m") ∧
      (TermTacToeWriteUserMessage ansi .TTT_REMOTE_MOVE World.boot =
          some { World.boot with term := World.boot.term ++ messageOut ansi .TTT_REMOTE_MOVE } ∧
        (List.IsInfix (lit "\x1b[5m") (messageOut ansi .TTT_REMOTE_MOVE) ↔
          UserMessageType.TTT_REMOTE_MOVE = .TTT_LOCAL_MOVE)) :=
  ⟨⟨rfl, rfl⟩, writeUserMessage_blink ansi World.boot .TTT_REMOTE_MOVE rfl rfl⟩

/-- C6: the user-message table has exactly 3 entries; each entry is an 18-byte
slot, and read up to its NUL is exactly 17 characters long, which is also the
length of what is printed for each message kind. -/
theorem userMessage_table_width :
    TermTacToe_au8UserMessage.length = 3 ∧
      TermTacToe_au8UserMessage.map List.length = [18, 18, 18] ∧
      TermTacToe_au8UserMessage.map (fun e => (strOf e).length) = [17, 17, 17] ∧
      TermTacToe_au8UserMessage.map (fun e => decide (0 ∈ e)) = [true, true, true] ∧
      (∀ k : UserMessageType, ∃ p, entryPtr TermTacToe_au8UserMessage k.toNat = some p ∧
        (strOf p).length = 17) := by
  refine ⟨by decide, by decide, by decide, by decide, ?_⟩
  intro k
  cases k
  · exact ⟨_, rfl, by decide⟩
  · exact ⟨_, rfl, by decide⟩
  · exact ⟨_, rfl, by decide⟩

/-! ## The state machine -/

theorem initialize_eq (T : TermCodes) (w : World) :
    TermTacToeInitialize T w = some
      { w with
        term := w.term ++
          strOf (cstr (lit "### TIC-TAC-TOE ###\n\rPlease set terminal to 17 x 14\n\r")) ++
          strOf (cstr T.TERM_CUR_HIDE)
        passthrough := true
        mod := { w.mod with TermTacToe_pfStateMachine := some .TermTacToeSM_Setup } } := by
  simp [TermTacToeInitialize, DebugPrintf_cstr, DebugSetPassthrough]

theorem initialize_spec (T : TermCodes) (w : World) :
    ∃ w1, TermTacToeInitialize T w = some w1 ∧
      w1.mod.TermTacToe_pfStateMachine = some .TermTacToeSM_Setup ∧
      w1.mod.TermTacToe_au8GameBoard = w.mod.TermTacToe_au8GameBoard ∧
      w1.mod.TermTacToe_au8UserMessage = w.mod.TermTacToe_au8UserMessage :=
  ⟨_, initialize_eq T w, rfl, rfl, rfl⟩

set_option maxRecDepth 100000 in
theorem board_full : cstr (strOf TermTacToe_au8GameBoard) = TermTacToe_au8GameBoard := by
  decide

theorem board_mem_zero : 0 ∈ TermTacToe_au8GameBoard := by
  simp [TermTacToe_au8GameBoard, cstr]

theorem setup_eq (T : TermCodes) (w : World)
    (hboard : w.mod.TermTacToe_au8GameBoard = TermTacToe_au8GameBoard)
    (hmsg : w.mod.TermTacToe_au8UserMessage = TermTacToe_au8UserMessage) :
    TermTacToeSM_Setup T w = some
      { w with
        term := w.term ++ (configSeq T ++ strOf TermTacToe_au8GameBoard ++
          messageOut T .TTT_WAITING)
        mod := { w.mod with TermTacToe_pfStateMachine := some .TermTacToeSM_Idle } } := by
  simp only [TermTacToeSM_Setup, DebugPrintf_cstr, Option.bind_eq_bind, Option.some_bind, hboard,
    DebugPrintf_of_mem board_mem_zero]
  rw [writeUserMessage_eq]
  · simp [configSeq, List.append_assoc, hboard]
  · exact hmsg

theorem idleButton_eq (T : TermCodes) (b : ButtonNameType) (sq : Nat) (bX : Bool)
    (m : UserMessageType) (w : World) (hsq : sq < 9)
    (hred : bX = true → 3 < T.TERM_TEXT_RED.length)
    (hmsg : w.mod.TermTacToe_au8UserMessage = TermTacToe_au8UserMessage) :
    idleButton T b sq bX m w = some
      (if w.pressed.get b then
        { w with
          term := w.term ++ (squareOut T sq bX ++ messageOut T m)
          pressed := w.pressed.clear b
          acks := w.acks ++ [b] }
      else w) := by
  unfold idleButton WasButtonPressed
  by_cases hb : w.pressed.get b = true
  · simp only [hb, if_true, Option.bind_eq_bind, ButtonAcknowledge]
    rw [writeSquare_eq T _ sq bX hsq hred]
    simp only [Option.some_bind]
    rw [writeUserMessage_eq]
    · simp [List.append_assoc]
    · exact hmsg
  · simp [hb]

/-- One Idle tick, for every combination of pending presses. -/
theorem idle_eq (T : TermCodes) (w : World)
    (hmsg : w.mod.TermTacToe_au8UserMessage = TermTacToe_au8UserMessage)
    (hred : 3 < T.TERM_TEXT_RED.length) :
    TermTacToeSM_Idle T w = some
      { w with
        term := w.term ++ idleOut T w.pressed
        pressed := (idleAcks w.pressed).foldl Buttons.clear w.pressed
        acks := w.acks ++ idleAcks w.pressed } := by
  obtain ⟨term, pt, ⟨b0, b1, b2, b3⟩, acks, mod⟩ := w
  simp only at hmsg
  unfold TermTacToeSM_Idle
  rw [idleButton_eq T _ _ _ _ _ (by decide) (fun _ => hred) hmsg]
  simp only [Option.bind_eq_bind, Option.some_bind]
  rw [idleButton_eq T _ _ _ _ _ (by decide) (fun _ => hred) (by split <;> exact hmsg)]
  simp only [Option.some_bind]
  rw [idleButton_eq T _ _ _ _ _ (by decide) (fun h => by cases h)
    (by split <;> split <;> exact hmsg)]
  simp only [Option.some_bind]
  rw [idleButton_eq T _ _ _ _ _ (by decide) (fun h => by cases h)
    (by split <;> split <;> split <;> exact hmsg)]
  cases b0 <;> cases b1 <;> cases b2 <;> cases b3 <;>
    simp [Buttons.get, Buttons.clear, idleOut, idleAcks, pendingActions, idleActions, EX, OH,
      List.append_assoc]

theorem runActiveState_idle (T : TermCodes) (w : World)
    (hidle : w.mod.TermTacToe_pfStateMachine = some .TermTacToeSM_Idle) :
    TermTacToeRunActiveState T w = TermTacToeSM_Idle T w := by
  simp [TermTacToeRunActiveState, hidle]

theorem runTicks_idle (T : TermCodes) (hred : 3 < T.TERM_TEXT_RED.length) (bs : List Buttons) :
    ∀ w : World, w.mod.TermTacToe_pfStateMachine = some .TermTacToeSM_Idle →
      w.mod.TermTacToe_au8UserMessage = TermTacToe_au8UserMessage →
      ∃ wn, runTicks T bs w = some wn ∧ wn.mod = w.mod := by
  induction bs with
  | nil => intro w _ _; exact ⟨w, rfl, rfl⟩
  | cons b bs ih =>
    intro w hidle hmsg
    have hstep := (runActiveState_idle T (press b w) hidle).trans
      (idle_eq T (press b w) hmsg hred)
    simp only [runTicks, hstep, Option.some_bind]
    exact ih _ hidle hmsg

theorem runActiveState_setup (T : TermCodes) (w : World)
    (hsetup : w.mod.TermTacToe_pfStateMachine = some .TermTacToeSM_Setup) :
    TermTacToeRunActiveState T w = TermTacToeSM_Setup T w := by
  simp [TermTacToeRunActiveState, hsetup]

theorem idleAcks_mem (p : Buttons) (b : ButtonNameType) :
    b ∈ idleAcks p ↔ p.get b = true := by
  obtain ⟨b0, b1, b2, b3⟩ := p
  cases b <;> cases b0 <;> cases b1 <;> cases b2 <;> cases b3 <;> decide

theorem idleAcks_clear (p : Buttons) (b : ButtonNameType) :
    ((idleAcks p).foldl Buttons.clear p).get b = false := by
  obtain ⟨b0, b1, b2, b3⟩ := p
  cases b <;> cases b0 <;> cases b1 <;> cases b2 <;> cases b3 <;> decide

/-- C7: after `TermTacToeInitialize` the active state is Setup; the first
`TermTacToeRunActiveState` call, whatever the button input, changes the state
to Idle and emits the terminal configuration, then the full board template,
then the Waiting message; and after any run of one or more calls, whatever the
button inputs, the state is Idle. -/
theorem setup_runs_once_then_idle (T : TermCodes) (w : World)
    (hboard : w.mod.TermTacToe_au8GameBoard = TermTacToe_au8GameBoard)
    (hmsg : w.mod.TermTacToe_au8UserMessage = TermTacToe_au8UserMessage)
    (hred : 3 < T.TERM_TEXT_RED.length) :
    ∃ w1, TermTacToeInitialize T w = some w1 ∧
      w1.mod.TermTacToe_pfStateMachine = some .TermTacToeSM_Setup ∧
      (∀ b : Buttons, ∃ w2, TermTacToeRunActiveState T (press b w1) = some w2 ∧
        w2.mod.TermTacToe_pfStateMachine = some .TermTacToeSM_Idle ∧
        w2.term = w1.term ++ configSeq T ++ strOf TermTacToe_au8GameBoard ++
          messageOut T .TTT_WAITING) ∧
      (∀ (b : Buttons) (bs : List Buttons), ∃ wn, runTicks T (b :: bs) w1 = some wn ∧
        wn.mod.TermTacToe_pfStateMachine = some .TermTacToeSM_Idle) ∧
      cstr (strOf TermTacToe_au8GameBoard) = TermTacToe_au8GameBoard := by
  obtain ⟨w1, hinit, hpf, hb1, hm1⟩ := initialize_spec T w
  rw [hboard] at hb1
  rw [hmsg] at hm1
  refine ⟨w1, hinit, hpf, ?_, ?_, board_full⟩
  · intro b
    refine ⟨_, (runActiveState_setup T (press b w1) hpf).trans
      (setup_eq T (press b w1) hb1 hm1), rfl, ?_⟩
    simp [press, List.append_assoc]
  · intro b bs
    simp only [runTicks, (runActiveState_setup T (press b w1) hpf).trans
      (setup_eq T (press b w1) hb1 hm1), Option.some_bind]
    obtain ⟨wn, hwn, hmod⟩ := runTicks_idle T hred bs
      { press b w1 with
        term := (press b w1).term ++ (configSeq T ++ strOf TermTacToe_au8GameBoard ++
          messageOut T .TTT_WAITING)
        mod := { (press b w1).mod with
          TermTacToe_pfStateMachine := some .TermTacToeSM_Idle } } rfl hm1
    exact ⟨wn, hwn, by rw [hmod]⟩

theorem setup_runs_once_then_idle_witness :
    (World.boot.mod.TermTacToe_au8GameBoard = TermTacToe_au8GameBoard ∧
        World.boot.mod.TermTacToe_au8UserMessage = TermTacToe_au8UserMessage ∧
        3 < ansi.TERM_TEXT_RED.length) ∧
      ∃ w1, TermTacToeInitialize ansi World.boot = some w1 ∧
        w1.mod.TermTacToe_pfStateMachine = some .TermTacToeSM_Setup ∧
        (∀ b : Buttons, ∃ w2, TermTacToeRunActiveState ansi (press b w1) = some w2 ∧
          w2.mod.TermTacToe_pfStateMachine = some .TermTacToeSM_Idle ∧
          w2.term = w1.term ++ configSeq ansi ++ strOf TermTacToe_au8GameBoard ++
            messageOut ansi .TTT_WAITING) ∧
        (∀ (b : Buttons) (bs : List Buttons), ∃ wn, runTicks ansi (b :: bs) w1 = some wn ∧
          wn.mod.TermTacToe_pfStateMachine = some .TermTacToeSM_Idle) ∧
        cstr (strOf TermTacToe_au8GameBoard) = TermTacToe_au8GameBoard :=
  ⟨⟨rfl, rfl, by decide⟩, setup_runs_once_then_idle ansi World.boot rfl rfl (by decide)⟩

/-- C8: in the Idle state, for every one of the 16 combinations of pending
presses, one tick emits exactly the concatenation, in input order 0,1,2,3 over
the pressed inputs only, of the output of writing the mapped cell and glyph
followed by the output of writing the mapped message (0: cell 0, X, remote
move; 1: cell 2, X, remote move; 2: cell 4, O, local move; 3: cell 8, O, local
move); it acknowledges exactly the pressed inputs and clears only their
flags, emits nothing when no input is pressed, and leaves the module
variables, the active state Idle among them, as they were. -/
theorem idle_tick_output (T : TermCodes) (w : World)
    (hidle : w.mod.TermTacToe_pfStateMachine = some .TermTacToeSM_Idle)
    (hmsg : w.mod.TermTacToe_au8UserMessage = TermTacToe_au8UserMessage)
    (hred : 3 < T.TERM_TEXT_RED.length) :
    TermTacToeRunActiveState T w = some
        { w with
          term := w.term ++ idleOut T w.pressed
          pressed := (idleAcks w.pressed).foldl Buttons.clear w.pressed
          acks := w.acks ++ idleAcks w.pressed } ∧
      (∀ b : ButtonNameType, b ∈ idleAcks w.pressed ↔ w.pressed.get b = true) ∧
      (∀ b : ButtonNameType,
        ((idleAcks w.pressed).foldl Buttons.clear w.pressed).get b = false) ∧
      idleOut T ⟨false, false, false, false⟩ = [] ∧
      idleAcks ⟨false, false, false, false⟩ = [] :=
  ⟨(runActiveState_idle T w hidle).trans (idle_eq T w hmsg hred), idleAcks_mem w.pressed,
    idleAcks_clear w.pressed, rfl, rfl⟩

theorem idle_tick_output_witness :
    (idleWorld0.mod.TermTacToe_pfStateMachine = some .TermTacToeSM_Idle ∧
        idleWorld0.mod.TermTacToe_au8UserMessage = TermTacToe_au8UserMessage ∧
        3 < ansi.TERM_TEXT_RED.length) ∧
      (TermTacToeRunActiveState ansi idleWorld0 = some
          { idleWorld0 with
            term := idleWorld0.term ++ idleOut ansi idleWorld0.pressed
            pressed := (idleAcks idleWorld0.pressed).foldl Buttons.clear idleWorld0.pressed
            acks := idleWorld0.acks ++ idleAcks idleWorld0.pressed } ∧
        (∀ b : ButtonNameType, b ∈ idleAcks idleWorld0.pressed ↔
          idleWorld0.pressed.get b = true) ∧
        (∀ b : ButtonNameType,
          ((idleAcks idleWorld0.pressed).foldl Buttons.clear idleWorld0.pressed).get b = false) ∧
        idleOut ansi ⟨false, false, false, false⟩ = [] ∧
        idleAcks ⟨false, false, false, false⟩ = []) :=
  ⟨⟨rfl, rfl, by decide⟩, idle_tick_output ansi idleWorld0 rfl rfl (by decide)⟩

/-- C9 as stated fails. With the ANSI macro values, in the Idle state with a
press pending on input 0 only, one tick emits format, colour, position(2,3),
`'X'` and then position(12,1), reset, blue, reverse, "    THEIR TURN   " (four
spaces before the text). That differs from the claimed bytes (position first,
text with three leading spaces), and it still differs when only the order or
only the text of the claim is put right. -/
theorem idle_input0_claimed_output_fails :
    ∃ w1, TermTacToeRunActiveState ansi idleWorld0 = some w1 ∧
      w1.term = lit "\x1b[0m\x1b[40m\x1b[1m\x1b[32m\x1b[2;3HX" ++
        lit "\x1b[12;1H\x1b[0m\x1b[34m\x1b[7m    THEIR TURN   " ∧
      w1.term ≠ (cursorPos 2 3 ++ formatSeq ++ colorSeq ansi true ++ ['X'.toNat]) ++
        (cursorPos 12 1 ++ lit "\x1b[0m\x1b[34m\x1b[7m" ++ lit "   THEIR TURN   ") ∧
      w1.term ≠ (cursorPos 2 3 ++ formatSeq ++ colorSeq ansi true ++ ['X'.toNat]) ++
        (cursorPos 12 1 ++ lit "\x1b[0m\x1b[34m\x1b[7m" ++ lit "    THEIR TURN   ") ∧
      w1.term ≠ (formatSeq ++ colorSeq ansi true ++ cursorPos 2 3 ++ ['X'.toNat]) ++
        (cursorPos 12 1 ++ lit "\x1b[0m\x1b[34m\x1b[7m" ++ lit "   THEIR TURN   ") :=
  ⟨_, rfl, by decide, by decide, by decide, by decide⟩

/-- C9, amended: in the Idle state with a press pending on input 0 only, one
`TermTacToeRunActiveState` call emits exactly format, colour of an X,
position(2,3), glyph `'X'`, in that order, followed by position(12,1), reset,
blue, reverse video and the text "    THEIR TURN   " (four spaces, THEIR TURN,
three spaces); it acknowledges input 0 and changes nothing else. -/
theorem idle_input0_scenario (T : TermCodes) (w : World)
    (hidle : w.mod.TermTacToe_pfStateMachine = some .TermTacToeSM_Idle)
    (hmsg : w.mod.TermTacToe_au8UserMessage = TermTacToe_au8UserMessage)
    (hred : 3 < T.TERM_TEXT_RED.length)
    (hpress : w.pressed = ⟨true, false, false, false⟩) :
    TermTacToeRunActiveState T w = some
      { w with
        term := w.term ++
          ((formatSeq ++ colorSeq T true ++ cursorPos 2 3 ++ ['X'.toNat]) ++
            (cursorPos 12 1 ++ lit "\x1b[0m" ++ lit "\x1b[34m" ++ lit "\x1b[7m" ++
              lit "    THEIR TURN   "))
        pressed := ⟨false, false, false, false⟩
        acks := w.acks ++ [.BUTTON0] } := by
  rw [runActiveState_idle T w hidle, idle_eq T w hmsg hred, hpress]
  have hout : idleOut T ⟨true, false, false, false⟩ =
      (formatSeq ++ colorSeq T true ++ cursorPos 2 3 ++ ['X'.toNat]) ++
        (cursorPos 12 1 ++ lit "\x1b[0m" ++ lit "\x1b[34m" ++ lit "\x1b[7m" ++
          lit "    THEIR TURN   ") := by
    have hpos : cursorPos (cellRow 0) (cellCol 0) = cursorPos 2 3 := by decide
    simp [idleOut, pendingActions, idleActions, Buttons.get, squareOut, messageOut,
      messageText, glyph, hpos]
  rw [hout]
  rfl

theorem idle_input0_scenario_witness :
    (idleWorld0.mod.TermTacToe_pfStateMachine = some .TermTacToeSM_Idle ∧
        idleWorld0.mod.TermTacToe_au8UserMessage = TermTacToe_au8UserMessage ∧
        3 < ansi.TERM_TEXT_RED.length ∧
        idleWorld0.pressed = ⟨true, false, false, false⟩) ∧
      TermTacToeRunActiveState ansi idleWorld0 = some
        { idleWorld0 with
          term := idleWorld0.term ++
            ((formatSeq ++ colorSeq ansi true ++ cursorPos 2 3 ++ ['X'.toNat]) ++
              (cursorPos 12 1 ++ lit "\x1b[0m" ++ lit "\x1b[34m" ++ lit "\x1b[7m" ++
                lit "    THEIR TURN   "))
          pressed := ⟨false, false, false, false⟩
          acks := idleWorld0.acks ++ [.BUTTON0] } :=
  ⟨⟨rfl, rfl, by decide, rfl⟩, idle_input0_scenario ansi idleWorld0 rfl rfl (by decide) rfl⟩

/-! ## Absence of hidden state -/

/-- C10: for every cell index in 0..8 and both glyphs, from any world and any
module state, `TermTacToeWriteSquare` appends a byte string that depends only
on its arguments and leaves everything else, the module variables included,
unchanged; called `n` times in a row with the same arguments it appends `n`
copies of that string. -/
theorem writeSquare_no_hidden_state (T : TermCodes) (cellIndex : Nat) (isX : Bool)
    (hcell : cellIndex < 9) (hred : isX = true → 3 < T.TERM_TEXT_RED.length)
    (w : World) (n : Nat) :
    TermTacToeWriteSquare T cellIndex isX w =
        some { w with term := w.term ++ squareOut T cellIndex isX } ∧
      callTimes (TermTacToeWriteSquare T cellIndex isX) n w =
        some { w with
          term := w.term ++ (List.replicate n (squareOut T cellIndex isX)).flatten } := by
  refine ⟨writeSquare_eq T w cellIndex isX hcell hred, ?_⟩
  induction n generalizing w with
  | zero => simp [callTimes]
  | succ n ih =>
    simp only [callTimes, writeSquare_eq T w cellIndex isX hcell hred, Option.some_bind, ih,
      List.replicate_succ, List.flatten_cons, List.append_assoc]

theorem writeSquare_no_hidden_state_witness :
    (8 < 9 ∧ ((true = true) → 3 < ansi.TERM_TEXT_RED.length)) ∧
      (TermTacToeWriteSquare ansi 8 true idleWorld0 =
          some { idleWorld0 with term := idleWorld0.term ++ squareOut ansi 8 true } ∧
        callTimes (TermTacToeWriteSquare ansi 8 true) 3 idleWorld0 =
          some { idleWorld0 with
            term := idleWorld0.term ++ (List.replicate 3 (squareOut ansi 8 true)).flatten }) :=
  ⟨⟨by decide, fun _ => by decide⟩,
    writeSquare_no_hidden_state ansi 8 true (by decide) (fun _ => by decide) idleWorld0 3⟩

/-! ## Reachable states -/

theorem DebugPrintf_mod {a : List Nat} {w v : World} (h : DebugPrintf a w = some v) :
    v.mod = w.mod := by
  unfold DebugPrintf at h
  split at h
  · cases h; rfl
  · cases h

theorem writeSquare_mod {T : TermCodes} {sq : Nat} {bX : Bool} {w v : World}
    (h : TermTacToeWriteSquare T sq bX w = some v) : v.mod = w.mod := by
  unfold TermTacToeWriteSquare at h
  simp only [Option.bind_eq_bind, Option.bind_eq_some] at h
  obtain ⟨gc, _, buf, _, w1, h1, w2, h2, w3, h3, h4⟩ := h
  rw [DebugPrintf_mod h4, DebugPrintf_mod h3, DebugPrintf_mod h2, DebugPrintf_mod h1]

theorem writeUserMessage_mod {T : TermCodes} {k : UserMessageType} {w v : World}
    (h : TermTacToeWriteUserMessage T k w = some v) : v.mod = w.mod := by
  unfold TermTacToeWriteUserMessage at h
  simp only [Option.bind_eq_bind, Option.bind_eq_some] at h
  obtain ⟨w1, h1, h⟩ := h
  by_cases hk : k = .TTT_LOCAL_MOVE
  · simp only [hk, if_true, Option.bind_eq_some] at h
    obtain ⟨w2, h2, msg, _, h4⟩ := h
    rw [DebugPrintf_mod h4, DebugPrintf_mod h2, DebugPrintf_mod h1]
  · simp only [hk, if_false, Option.pure_def, Option.some_bind, Option.bind_eq_some] at h
    obtain ⟨msg, _, h4⟩ := h
    rw [DebugPrintf_mod h4, DebugPrintf_mod h1]

theorem idleButton_mod {T : TermCodes} {b : ButtonNameType} {sq : Nat} {bX : Bool}
    {m : UserMessageType} {w v : World} (h : idleButton T b sq bX m w = some v) :
    v.mod = w.mod := by
  unfold idleButton at h
  split at h
  · simp only [Option.bind_eq_bind, Option.bind_eq_some] at h
    obtain ⟨w1, h1, h2⟩ := h
    rw [writeUserMessage_mod h2, writeSquare_mod h1]
    rfl
  · cases h; rfl

theorem idle_mod {T : TermCodes} {w v : World} (h : TermTacToeSM_Idle T w = some v) :
    v.mod = w.mod := by
  unfold TermTacToeSM_Idle at h
  simp only [Option.bind_eq_bind, Option.bind_eq_some] at h
  obtain ⟨w1, h1, w2, h2, w3, h3, h4⟩ := h
  rw [idleButton_mod h4, idleButton_mod h3, idleButton_mod h2, idleButton_mod h1]

theorem setup_state {T : TermCodes} {w v : World} (h : TermTacToeSM_Setup T w = some v) :
    v.mod.TermTacToe_pfStateMachine = some .TermTacToeSM_Idle := by
  unfold TermTacToeSM_Setup at h
  simp only [Option.bind_eq_bind, Option.bind_eq_some] at h
  obtain ⟨w1, _, w2, _, w3, _, w4, _, w5, _, w6, _, h7⟩ := h
  cases h7
  rfl

/-- No tick moves the state pointer to the Error body: a tick that ends in
Error started in Error. -/
theorem runActiveState_error_only_from_error (T : TermCodes) (w v : World)
    (h : TermTacToeRunActiveState T w = some v)
    (herr : v.mod.TermTacToe_pfStateMachine = some .TermTacToeSM_Error) :
    w.mod.TermTacToe_pfStateMachine = some .TermTacToeSM_Error := by
  unfold TermTacToeRunActiveState at h
  split at h
  · cases h
  · rw [setup_state h] at herr
    cases herr
  · rw [idle_mod h] at herr
    exact herr
  · assumption

/-- From a world in the Setup state with intact tables, every run of one or
more ticks returns and ends in the Idle state. -/
theorem runTicks_from_setup (T : TermCodes) (w1 : World)
    (hpf : w1.mod.TermTacToe_pfStateMachine = some .TermTacToeSM_Setup)
    (hboard : w1.mod.TermTacToe_au8GameBoard = TermTacToe_au8GameBoard)
    (hmsg : w1.mod.TermTacToe_au8UserMessage = TermTacToe_au8UserMessage)
    (hred : 3 < T.TERM_TEXT_RED.length) (b : Buttons) (bs : List Buttons) :
    ∃ wn, runTicks T (b :: bs) w1 = some wn ∧
      wn.mod.TermTacToe_pfStateMachine = some .TermTacToeSM_Idle := by
  simp only [runTicks, (runActiveState_setup T (press b w1) hpf).trans
    (setup_eq T (press b w1) hboard hmsg), Option.some_bind]
  obtain ⟨wn, hwn, hmod⟩ := runTicks_idle T hred bs
    { press b w1 with
      term := (press b w1).term ++ (configSeq T ++ strOf TermTacToe_au8GameBoard ++
        messageOut T .TTT_WAITING)
      mod := { (press b w1).mod with
        TermTacToe_pfStateMachine := some .TermTacToeSM_Idle } } rfl hmsg
  exact ⟨wn, hwn, by rw [hmod]⟩

/-- C11: the Error state is never entered. After `TermTacToeInitialize`, every
run of `TermTacToeRunActiveState` calls, of any length and with any button
inputs, returns with the active state Setup or Idle and not Error; and in any
world at all, a tick that ends in the Error state started in it, so no state
body assigns Error to the state pointer. -/
theorem error_state_never_entered (T : TermCodes) (w : World)
    (hboard : w.mod.TermTacToe_au8GameBoard = TermTacToe_au8GameBoard)
    (hmsg : w.mod.TermTacToe_au8UserMessage = TermTacToe_au8UserMessage)
    (hred : 3 < T.TERM_TEXT_RED.length) :
    (∃ w1, TermTacToeInitialize T w = some w1 ∧
      ∀ bs : List Buttons, ∃ wn, runTicks T bs w1 = some wn ∧
        (wn.mod.TermTacToe_pfStateMachine = some .TermTacToeSM_Setup ∨
          wn.mod.TermTacToe_pfStateMachine = some .TermTacToeSM_Idle) ∧
        wn.mod.TermTacToe_pfStateMachine ≠ some .TermTacToeSM_Error) ∧
      ∀ v v1 : World, TermTacToeRunActiveState T v = some v1 →
        v1.mod.TermTacToe_pfStateMachine = some .TermTacToeSM_Error →
        v.mod.TermTacToe_pfStateMachine = some .TermTacToeSM_Error := by
  refine ⟨?_, runActiveState_error_only_from_error T⟩
  obtain ⟨w1, hinit, hpf, hb1, hm1⟩ := initialize_spec T w
  rw [hboard] at hb1
  rw [hmsg] at hm1
  refine ⟨w1, hinit, ?_⟩
  intro bs
  cases bs with
  | nil => exact ⟨w1, rfl, Or.inl hpf, by rw [hpf]; decide⟩
  | cons b bs =>
    obtain ⟨wn, hwn, hidle⟩ := runTicks_from_setup T w1 hpf hb1 hm1 hred b bs
    exact ⟨wn, hwn, Or.inr hidle, by rw [hidle]; decide⟩

theorem error_state_never_entered_witness :
    (World.boot.mod.TermTacToe_au8GameBoard = TermTacToe_au8GameBoard ∧
        World.boot.mod.TermTacToe_au8UserMessage = TermTacToe_au8UserMessage ∧
        3 < ansi.TERM_TEXT_RED.length) ∧
      ((∃ w1, TermTacToeInitialize ansi World.boot = some w1 ∧
        ∀ bs : List Buttons, ∃ wn, runTicks ansi bs w1 = some wn ∧
          (wn.mod.TermTacToe_pfStateMachine = some .TermTacToeSM_Setup ∨
            wn.mod.TermTacToe_pfStateMachine = some .TermTacToeSM_Idle) ∧
          wn.mod.TermTacToe_pfStateMachine ≠ some .TermTacToeSM_Error) ∧
        ∀ v v1 : World, TermTacToeRunActiveState ansi v = some v1 →
          v1.mod.TermTacToe_pfStateMachine = some .TermTacToeSM_Error →
          v.mod.TermTacToe_pfStateMachine = some .TermTacToeSM_Error) :=
  ⟨⟨rfl, rfl, by decide⟩, error_state_never_entered ansi World.boot rfl rfl (by decide)⟩

/-- C12: evaluated with the ANSI macro values from the reset world, for every
message kind `TermTacToeWriteUserMessage` starts its output with the
cursor-position sequence of row 12, column 1 (`ESC[12;1H`), not with that of
row 14, and nowhere addresses row 14; the reverse-video sequence `ESC[7m` does
precede the text. -/
theorem userMessage_row_is_12_not_14 (k : UserMessageType) :
    ∃ out, TermTacToeWriteUserMessage ansi k World.boot =
        some { World.boot with term := out } ∧
      List.IsPrefix (cursorPos 12 1) out ∧
      ¬ List.IsPrefix (cursorPos 14 1) out ∧
      ¬ List.IsInfix (lit "\x1b[14;") out ∧
      List.IsInfix (lit "\x1b[7m" ++ (if k = .TTT_LOCAL_MOVE then lit "\x1b[5m" else []) ++
        messageText k) out := by
  cases k
  · exact ⟨_, rfl, by decide, by decide, by decide, by decide⟩
  · exact ⟨_, rfl, by decide, by decide, by decide, by decide⟩
  · exact ⟨_, rfl, by decide, by decide, by decide, by decide⟩

/-! ## Unchecked cell index -/

theorem buildSetCursor_none (sq : Nat) (h : 9 ≤ sq) : buildSetCursor sq = none := by
  have h3 : ¬ sq / 3 < 3 := by omega
  simp [buildSetCursor, entryPtr, h3]

/-- C14: the cell index is not validated. The row lookup index `u8Square_ / 3`
is outside the 3-entry row table exactly when `u8Square_ >= 9` (so for all of
9..255), the column index `u8Square_ % 3` is always inside the column table,
and both the builder of the cursor string and `TermTacToeWriteSquare` end in
the out-of-bounds result, neither an error value nor a clamped position,
exactly when `u8Square_ >= 9`. -/
theorem writeSquare_index_unchecked (T : TermCodes) (w : World) (u8Square_ : Nat) (isX : Bool)
    (hred : isX = true → 3 < T.TERM_TEXT_RED.length) :
    (3 ≤ u8Square_ / 3 ↔ 9 ≤ u8Square_) ∧
      (entryPtr [arr 3 (lit "2"), arr 3 (lit "6"), arr 3 (lit "10")] (u8Square_ / 3) = none ↔
        9 ≤ u8Square_) ∧
      u8Square_ % 3 < 3 ∧
      entryPtr [arr 3 (lit "3"), arr 3 (lit "9"), arr 3 (lit "15")] (u8Square_ % 3) ≠ none ∧
      (buildSetCursor u8Square_ = none ↔ 9 ≤ u8Square_) ∧
      (TermTacToeWriteSquare T u8Square_ isX w = none ↔ 9 ≤ u8Square_) := by
  have hmod : u8Square_ % 3 < 3 := Nat.mod_lt _ (by decide)
  refine ⟨by omega, ?_, hmod, ?_, ?_, ?_⟩
  · have : (u8Square_ / 3 < 3) ↔ ¬ 9 ≤ u8Square_ := by omega
    by_cases h : 9 ≤ u8Square_
    · have h3 : ¬ u8Square_ / 3 < 3 := by omega
      simp [entryPtr, h3, h]
    · have h3 : u8Square_ / 3 < 3 := by omega
      simp [entryPtr, h3, h]
  · simp [entryPtr, hmod]
  · by_cases h : 9 ≤ u8Square_
    · simp [buildSetCursor_none _ h, h]
    · simp [buildSetCursor_eq _ (by omega : u8Square_ < 9), h]
  · by_cases h : 9 ≤ u8Square_
    · simp [TermTacToeWriteSquare, glyphAndColor_eq T isX hred, buildSetCursor_none _ h, h]
    · simp [writeSquare_eq T w _ isX (by omega : u8Square_ < 9) hred, h]

theorem writeSquare_index_unchecked_witness :
    ((true = true) → 3 < ansi.TERM_TEXT_RED.length) ∧
      ((3 ≤ 255 / 3 ↔ 9 ≤ 255) ∧
        (entryPtr [arr 3 (lit "2"), arr 3 (lit "6"), arr 3 (lit "10")] (255 / 3) = none ↔
          9 ≤ 255) ∧
        255 % 3 < 3 ∧
        entryPtr [arr 3 (lit "3"), arr 3 (lit "9"), arr 3 (lit "15")] (255 % 3) ≠ none ∧
        (buildSetCursor 255 = none ↔ 9 ≤ 255) ∧
        (TermTacToeWriteSquare ansi 255 true World.boot = none ↔ 9 ≤ 255)) :=
  ⟨fun _ => by decide,
    writeSquare_index_unchecked ansi World.boot 255 true (fun _ => by decide)⟩

/-! ## One state body per tick -/

/-- C15: a tick in the Setup state runs the Setup body only. Whatever presses
are pending, it emits the configuration, the board template and the Waiting
message, no glyph, leaves every pending flag and the acknowledge log as they
were and makes Idle the active state; the following tick, an Idle tick,
handles exactly those pending presses. -/
theorem setup_tick_ignores_inputs (T : TermCodes) (w : World)
    (hsetup : w.mod.TermTacToe_pfStateMachine = some .TermTacToeSM_Setup)
    (hboard : w.mod.TermTacToe_au8GameBoard = TermTacToe_au8GameBoard)
    (hmsg : w.mod.TermTacToe_au8UserMessage = TermTacToe_au8UserMessage)
    (hred : 3 < T.TERM_TEXT_RED.length) :
    ∃ w1, TermTacToeRunActiveState T w = some w1 ∧
      w1.term = w.term ++ (configSeq T ++ boardText ++ messageOut T .TTT_WAITING) ∧
      w1.pressed = w.pressed ∧
      w1.acks = w.acks ∧
      w1.passthrough = w.passthrough ∧
      w1.mod = { w.mod with TermTacToe_pfStateMachine := some .TermTacToeSM_Idle } ∧
      TermTacToeRunActiveState T w1 = some
        { w1 with
          term := w1.term ++ idleOut T w.pressed
          pressed := (idleAcks w.pressed).foldl Buttons.clear w.pressed
          acks := w.acks ++ idleAcks w.pressed } :=
  ⟨_, (runActiveState_setup T w hsetup).trans (setup_eq T w hboard hmsg), rfl, rfl, rfl, rfl,
    rfl, (runActiveState_idle T _ rfl).trans (idle_eq T _ hmsg hred)⟩

theorem setup_tick_ignores_inputs_witness :
    ((press ⟨true, false, true, false⟩
          { World.boot with mod := { Statics.boot with
            TermTacToe_pfStateMachine := some .TermTacToeSM_Setup } }).mod.TermTacToe_pfStateMachine =
        some .TermTacToeSM_Setup ∧
      3 < ansi.TERM_TEXT_RED.length) ∧
    ∃ w1, TermTacToeRunActiveState ansi (press ⟨true, false, true, false⟩
          { World.boot with mod := { Statics.boot with
            TermTacToe_pfStateMachine := some .TermTacToeSM_Setup } }) = some w1 ∧
      w1.term = [] ++ (configSeq ansi ++ boardText ++ messageOut ansi .TTT_WAITING) ∧
      w1.pressed = ⟨true, false, true, false⟩ ∧
      w1.acks = [] ∧
      w1.passthrough = false ∧
      w1.mod = { Statics.boot with TermTacToe_pfStateMachine := some .TermTacToeSM_Idle } ∧
      TermTacToeRunActiveState ansi w1 = some
        { w1 with
          term := w1.term ++ idleOut ansi ⟨true, false, true, false⟩
          pressed := (idleAcks ⟨true, false, true, false⟩).foldl Buttons.clear
            ⟨true, false, true, false⟩
          acks := [] ++ idleAcks ⟨true, false, true, false⟩ } :=
  ⟨⟨rfl, by decide⟩,
    setup_tick_ignores_inputs ansi (press ⟨true, false, true, false⟩
      { World.boot with mod := { Statics.boot with
        TermTacToe_pfStateMachine := some .TermTacToeSM_Setup } }) rfl rfl rfl (by decide)⟩

/-! ## Distinct cells, distinct positions -/

theorem cursor_strings_differ (i j : Nat) (hi : i < 9) (hj : j < 9) (hij : i ≠ j) :
    (cellRow i, cellCol i) ≠ (cellRow j, cellCol j) ∧
      cursorPos (cellRow i) (cellCol i) ≠ cursorPos (cellRow j) (cellCol j) := by
  interval_cases i <;> interval_cases j <;> first | exact absurd rfl hij | decide

/-- C18: the mapping from cells to screen positions is injective. For any two
different cell indices in 0..8 and any two glyphs, the (row, column) pairs
differ and the cursor-position sequences that `TermTacToeWriteSquare` builds
and emits (between the colour sequence and the glyph) differ. -/
theorem cell_positions_injective (T : TermCodes) (w : World) (i j : Nat) (xi xj : Bool)
    (hi : i < 9) (hj : j < 9) (hij : i ≠ j) (hred : 3 < T.TERM_TEXT_RED.length) :
    ∃ bi bj, buildSetCursor i = some bi ∧ buildSetCursor j = some bj ∧
      strOf bi ≠ strOf bj ∧
      (cellRow i, cellCol i) ≠ (cellRow j, cellCol j) ∧
      TermTacToeWriteSquare T i xi w = some { w with
        term := w.term ++ (formatSeq ++ colorSeq T xi ++ strOf bi ++ [glyph xi]) } ∧
      TermTacToeWriteSquare T j xj w = some { w with
        term := w.term ++ (formatSeq ++ colorSeq T xj ++ strOf bj ++ [glyph xj]) } := by
  refine ⟨_, _, buildSetCursor_eq i hi, buildSetCursor_eq j hj, ?_,
    (cursor_strings_differ i j hi hj hij).1, ?_, ?_⟩
  · rw [(strOf_arr_cursorPos i hi).2, (strOf_arr_cursorPos j hj).2]
    exact (cursor_strings_differ i j hi hj hij).2
  · rw [(strOf_arr_cursorPos i hi).2]
    exact writeSquare_eq T w i xi hi (fun _ => hred)
  · rw [(strOf_arr_cursorPos j hj).2]
    exact writeSquare_eq T w j xj hj (fun _ => hred)

theorem cell_positions_injective_witness :
    (2 < 9 ∧ 6 < 9 ∧ 2 ≠ 6 ∧ 3 < ansi.TERM_TEXT_RED.length) ∧
      ∃ bi bj, buildSetCursor 2 = some bi ∧ buildSetCursor 6 = some bj ∧
        strOf bi ≠ strOf bj ∧
        (cellRow 2, cellCol 2) ≠ (cellRow 6, cellCol 6) ∧
        TermTacToeWriteSquare ansi 2 true World.boot = some { World.boot with
          term := World.boot.term ++ (formatSeq ++ colorSeq ansi true ++ strOf bi ++
            [glyph true]) } ∧
        TermTacToeWriteSquare ansi 6 false World.boot = some { World.boot with
          term := World.boot.term ++ (formatSeq ++ colorSeq ansi false ++ strOf bj ++
            [glyph false]) } :=
  ⟨⟨by decide, by decide, by decide, by decide⟩,
    cell_positions_injective ansi World.boot 2 6 true false (by decide) (by decide) (by decide)
      (by decide)⟩

/-! ## The board template on the screen -/

set_option maxRecDepth 100000 in
/-- C13: the board template fits a window of 17 columns and 14 rows. Split at
its `"\n\r"` line breaks, its lines are 12, 15, 12, 17, 12, 16, 12, 17, 12, 15
and 14 bytes long (then an empty one), so none is wider than 17; emitted from
the home position (row 1, column 1), it prints on rows 1 to 11 and columns 1
to 17 only, the cursor never goes below row 14, and the 13 line feeds leave it
on row 14, column 1. -/
theorem board_fits_window :
    (splitLines boardText).map List.length = [12, 15, 12, 17, 12, 16, 12, 17, 12, 15, 14, 0] ∧
      (splitLines boardText).all (fun l => decide (l.length ≤ 17)) = true ∧
      (printedCells boardText (1, 1)).all
        (fun c => decide (1 ≤ c.1 ∧ c.1 ≤ 11 ∧ 1 ≤ c.2.1 ∧ c.2.1 ≤ 17)) = true ∧
      (cursorTrace boardText (1, 1)).all (fun pos => decide (pos.1 ≤ 14)) = true ∧
      (cursorTrace boardText (1, 1)).getLast? = some (14, 1) ∧
      boardText.count '\n'.toNat = 13 ∧
      cstr boardText = TermTacToe_au8GameBoard := by
  decide

set_option maxRecDepth 100000 in
/-- C16: the cell coordinates agree with the board template. For every cell
index `i` in 0..8, the cursor string built for `i` addresses row
`{2,6,10}[i / 3]`, column `{3,9,15}[i % 3]`, and when the template is laid out
from row 1, column 1 the character at that row and column is the decimal digit
of `i`: the glyph overwrites the label of cell `i`, not a grid line or a
blank. -/
theorem cell_position_is_its_label (i : Nat) (hi : i < 9) :
    buildSetCursor i = some (arr 13 (cursorPos (cellRow i) (cellCol i))) ∧
      charAt (printedCells boardText (1, 1)) (cellRow i) (cellCol i) = some ('0'.toNat + i) ∧
      ((splitLines boardText).getD (cellRow i - 1) []).get? (cellCol i - 1) =
        some ('0'.toNat + i) := by
  refine ⟨buildSetCursor_eq i hi, ?_, ?_⟩
  · interval_cases i <;> decide
  · interval_cases i <;> decide

theorem cell_position_is_its_label_witness :
    4 < 9 ∧
      (buildSetCursor 4 = some (arr 13 (cursorPos (cellRow 4) (cellCol 4))) ∧
        charAt (printedCells boardText (1, 1)) (cellRow 4) (cellCol 4) = some ('0'.toNat + 4) ∧
        ((splitLines boardText).getD (cellRow 4 - 1) []).get? (cellCol 4 - 1) =
          some ('0'.toNat + 4)) :=
  ⟨by decide, cell_position_is_its_label 4 (by decide)⟩

/-! ## Bounds of the cursor-string builder -/

/-- The ghost log does not change what the copy loop computes. -/
theorem copyDoWhileLog_erase (src : List Nat) :
    ∀ (buf : List Nat) (dst : Nat),
      (copyDoWhileLog src buf dst).map (fun r => (r.1, r.2.1)) = copyDoWhile src buf dst := by
  induction src with
  | nil => intro buf dst; rfl
  | cons c rest ih =>
    intro buf dst
    unfold copyDoWhileLog copyDoWhile
    cases hst : store buf dst c with
    | none => rfl
    | some buf1 =>
      cases rest with
      | nil => rfl
      | cons n tl =>
        by_cases hn : (n != 0) = true
        · simp only [hn, if_true]
          rw [← ih buf1 (dst + 1)]
          cases copyDoWhileLog (n :: tl) buf1 (dst + 1) with
          | none => rfl
          | some r => rfl
        · simp only [hn]
          rfl

/-- The ghost log does not change what the builder computes. -/
theorem buildSetCursorLog_erase (sq : Nat) :
    (buildSetCursorLog sq).map (fun t => t.buf) = buildSetCursor sq := by
  unfold buildSetCursorLog buildSetCursor
  simp only [Option.bind_eq_bind, ← copyDoWhileLog_erase]
  cases entryPtr [arr 3 (lit "2"), arr 3 (lit "6"), arr 3 (lit "10")] (sq / 3) with
  | none => rfl
  | some src1 =>
    simp only [Option.some_bind]
    cases copyDoWhileLog src1 (arr 13 (lit "\x1b[r;cH")) 2 with
    | none => rfl
    | some r1 =>
      obtain ⟨b1, d1, l1⟩ := r1
      simp only [Option.some_bind, Option.map_some']
      cases store b1 d1 ';'.toNat with
      | none => rfl
      | some b2 =>
        simp only [Option.some_bind]
        cases entryPtr [arr 3 (lit "3"), arr 3 (lit "9"), arr 3 (lit "15")] (sq % 3) with
        | none => rfl
        | some src2 =>
          simp only [Option.some_bind]
          cases copyDoWhileLog src2 b2 (d1 + 1) with
          | none => rfl
          | some r2 =>
            obtain ⟨b3, d2, l2⟩ := r2
            simp only [Option.some_bind, Option.map_some']
            cases store b3 d2 'H'.toNat with
            | none => rfl
            | some b4 =>
              simp only [Option.some_bind]
              cases store b4 (d2 + 1) 0 with
              | none => rfl
              | some b5 => rfl

/-- C17: for every square in 0..8 the builder of the cursor string returns,
and stays in bounds: both table lookups use an index below 3; each copy loop
copies the 1 or 2 digits of its table entry and stops at the NUL inside that
3-byte entry; the writes into the 13-byte `au8SetCursor` are at the
consecutive indices 2, 3, ..., all at most 8; the buffer keeps its 13 bytes and
holds a NUL-terminated string of 6 to 8 bytes. -/
theorem buildSetCursor_in_bounds (u8Square_ : Nat) (h : u8Square_ < 9) :
    ∃ t, buildSetCursorLog u8Square_ = some t ∧
      buildSetCursor u8Square_ = some t.buf ∧
      t.rowIndex = u8Square_ / 3 ∧ t.rowIndex < 3 ∧
      t.colIndex = u8Square_ % 3 ∧ t.colIndex < 3 ∧
      (t.rowCopied = 1 ∨ t.rowCopied = 2) ∧
      (t.colCopied = 1 ∨ t.colCopied = 2) ∧
      (strOf ([arr 3 (lit "2"), arr 3 (lit "6"), arr 3 (lit "10")].getD t.rowIndex [])).length =
        t.rowCopied ∧
      ([arr 3 (lit "2"), arr 3 (lit "6"), arr 3 (lit "10")].getD t.rowIndex []).get?
        t.rowCopied = some 0 ∧
      (strOf ([arr 3 (lit "3"), arr 3 (lit "9"), arr 3 (lit "15")].getD t.colIndex [])).length =
        t.colCopied ∧
      ([arr 3 (lit "3"), arr 3 (lit "9"), arr 3 (lit "15")].getD t.colIndex []).get?
        t.colCopied = some 0 ∧
      t.writes = List.range' 2 (t.rowCopied + t.colCopied + 3) ∧
      t.writes.all (fun i => decide (2 ≤ i ∧ i ≤ 8)) = true ∧
      t.buf.length = 13 ∧
      t.buf.get? (strOf t.buf).length = some 0 ∧
      6 ≤ (strOf t.buf).length ∧ (strOf t.buf).length ≤ 8 := by
  have herase := buildSetCursorLog_erase u8Square_
  interval_cases u8Square_ <;>
    · refine ⟨_, rfl, herase.symm, ?_⟩
      decide

theorem buildSetCursor_in_bounds_witness :
    8 < 9 ∧
      ∃ t, buildSetCursorLog 8 = some t ∧
        buildSetCursor 8 = some t.buf ∧
        t.rowIndex = 8 / 3 ∧ t.rowIndex < 3 ∧
        t.colIndex = 8 % 3 ∧ t.colIndex < 3 ∧
        (t.rowCopied = 1 ∨ t.rowCopied = 2) ∧
        (t.colCopied = 1 ∨ t.colCopied = 2) ∧
        (strOf ([arr 3 (lit "2"), arr 3 (lit "6"), arr 3 (lit "10")].getD t.rowIndex [])).length =
          t.rowCopied ∧
        ([arr 3 (lit "2"), arr 3 (lit "6"), arr 3 (lit "10")].getD t.rowIndex []).get?
          t.rowCopied = some 0 ∧
        (strOf ([arr 3 (lit "3"), arr 3 (lit "9"), arr 3 (lit "15")].getD t.colIndex [])).length =
          t.colCopied ∧
        ([arr 3 (lit "3"), arr 3 (lit "9"), arr 3 (lit "15")].getD t.colIndex []).get?
          t.colCopied = some 0 ∧
        t.writes = List.range' 2 (t.rowCopied + t.colCopied + 3) ∧
        t.writes.all (fun i => decide (2 ≤ i ∧ i ≤ 8)) = true ∧
        t.buf.length = 13 ∧
        t.buf.get? (strOf t.buf).length = some 0 ∧
        6 ≤ (strOf t.buf).length ∧ (strOf t.buf).length ≤ 8 :=
  ⟨by decide, buildSetCursor_in_bounds 8 (by decide)⟩

end TermTacToe
